import Mathlib

/-!
Shallow embedding of the replit-todo server: the relational rows of
shared/schema (users, password_resets, todos), the storage layer
(server/storage.ts, class DatabaseStorage) and the route handlers of
server/routes.ts that the verified properties concern.

Conventions of the embedding:
* timestamps are natural numbers (milliseconds since epoch); every
  operation that calls new Date() in the source takes the current time
  as an explicit `now` argument;
* the database is a record of lists of rows, in insertion order, with
  the serial id counters made explicit;
* bcrypt.hash is an external library call: it is passed in as an
  arbitrary function `hash : String → String`, and bcrypt.compare as an
  arbitrary `cmp : String → String → Bool`; no property of bcrypt is
  assumed anywhere;
* drizzle update/delete statements touch every row matching their
  where-predicate; `.returning()` followed by destructuring `[row]`
  takes the first returned row, modelled with List.find? on the
  updated list;
* the zod parse step of each route (input shape validation) is the
  framework edge; handlers are modelled on already-parsed request data.
-/

namespace TodoApp

/-- Row of the users table (shared/schema.ts): serial id, unique email,
bcrypt password hash, optional names, creation timestamp. -/
structure User where
  id : Nat
  email : String
  password : String
  firstName : Option String
  lastName : Option String
  createdAt : Nat
deriving Repr, DecidableEq

/-- Row of the password_resets table (shared/schema.ts). -/
structure PasswordReset where
  id : Nat
  email : String
  token : String
  expiresAt : Nat
  used : Bool
  createdAt : Nat
deriving Repr, DecidableEq

/-- Row of the todos table (shared/schema.ts): completedAt is the
nullable completion timestamp. -/
structure Todo where
  id : Nat
  text : String
  completed : Bool
  userId : Nat
  createdAt : Nat
  completedAt : Option Nat
deriving Repr, DecidableEq

/-- The relational store: the three tables plus the serial counters
(postgres serial columns start at 1). -/
structure DB where
  users : List User
  passwordResets : List PasswordReset
  todos : List Todo
  nextUserId : Nat
  nextResetId : Nat
  nextTodoId : Nat
deriving Repr, DecidableEq

/-- The empty database, as created by the migrations. -/
def emptyDB : DB := ⟨[], [], [], 1, 1, 1⟩

/-- Payload of insertUserSchema / registerSchema: the data accepted at
registration. -/
structure InsertUser where
  email : String
  password : String
  firstName : Option String
  lastName : Option String
deriving Repr, DecidableEq

/-- Payload of insertTodoSchema: text plus an optional completed flag
(the todos.completed column defaults to false when the field is
absent); id, userId, createdAt, completedAt are omitted by the schema. -/
structure InsertTodo where
  text : String
  completed : Option Bool
deriving Repr, DecidableEq

/-- Payload of updateTodoSchema: createInsertSchema(todos) minus id,
userId, createdAt, then .partial() — so text, completed and completedAt
are each optionally present, and completedAt itself is nullable. -/
structure UpdateTodo where
  text : Option String
  completed : Option Bool
  completedAt : Option (Option Nat)
deriving Repr, DecidableEq

/-! Storage layer, mirroring server/storage.ts (class DatabaseStorage). -/

/-- DatabaseStorage.getUser: select from users where id = id, first row. -/
def getUser (db : DB) (id : Nat) : Option User :=
  db.users.find? (fun u => u.id == id)

/-- DatabaseStorage.getUserByEmail: select from users where email =
email, first row. -/
def getUserByEmail (db : DB) (email : String) : Option User :=
  db.users.find? (fun u => u.email == email)

/-- DatabaseStorage.createUser: hash the password, insert the row,
return it. `hash` stands for bcrypt.hash with its salt fixed for this
call; `now` is the created_at default. -/
def createUser (hash : String → String) (db : DB) (iu : InsertUser) (now : Nat) :
    User × DB :=
  let u : User :=
    { id := db.nextUserId, email := iu.email, password := hash iu.password,
      firstName := iu.firstName, lastName := iu.lastName, createdAt := now }
  (u, { db with users := db.users ++ [u], nextUserId := db.nextUserId + 1 })

/-- DatabaseStorage.authenticateUser: fetch by email; absent user gives
null; otherwise bcrypt.compare (the parameter `cmp`) decides between
the user and null. -/
def authenticateUser (cmp : String → String → Bool) (db : DB)
    (email password : String) : Option User :=
  match getUserByEmail db email with
  | none => none
  | some u => if cmp password u.password then some u else none

/-- DatabaseStorage.createPasswordReset: insert a token row expiring
3600000 ms (one hour) after now, used = false. -/
def createPasswordReset (db : DB) (email token : String) (now : Nat) : DB :=
  let r : PasswordReset :=
    { id := db.nextResetId, email := email, token := token,
      expiresAt := now + 3600000, used := false, createdAt := now }
  { db with passwordResets := db.passwordResets ++ [r],
            nextResetId := db.nextResetId + 1 }

/-- DatabaseStorage.getPasswordReset: select where token = token AND
used = false, first row. -/
def getPasswordReset (db : DB) (token : String) : Option PasswordReset :=
  db.passwordResets.find? (fun r => r.token == token && r.used == false)

/-- DatabaseStorage.markPasswordResetUsed: update set used = true on
every row whose token matches. -/
def markPasswordResetUsed (db : DB) (token : String) : DB :=
  let rows := db.passwordResets.map
    (fun r => if r.token == token then { r with used := true } else r)
  { db with passwordResets := rows }

/-- DatabaseStorage.updateUserPassword: re-hash and set the password on
every user row whose email matches. -/
def updateUserPassword (hash : String → String) (db : DB)
    (email password : String) : DB :=
  let rows := db.users.map
    (fun u => if u.email == email then { u with password := hash password } else u)
  { db with users := rows }

/-- DatabaseStorage.getAllTodos: select where user_id = userId ordered
by created_at ascending. -/
def getAllTodos (db : DB) (userId : Nat) : List Todo :=
  (db.todos.filter (fun t => t.userId == userId)).mergeSort
    (fun a b => a.createdAt ≤ b.createdAt)

/-- The shared where-predicate of getTodo, updateTodo and deleteTodo:
and(eq(todos.id, id), eq(todos.userId, userId)) — row id and owner id
in a single conjunction. -/
def todoMatch (id userId : Nat) (t : Todo) : Bool :=
  t.id == id && t.userId == userId

/-- DatabaseStorage.getTodo: select where id = id AND user_id = userId,
first row. -/
def getTodo (db : DB) (id userId : Nat) : Option Todo :=
  db.todos.find? (todoMatch id userId)

/-- DatabaseStorage.createTodo: insert text, completed (column default
false when the optional field is absent) and userId; created_at
defaults to now and completed_at, being omitted, is null. -/
def createTodo (db : DB) (it : InsertTodo) (userId now : Nat) : Todo × DB :=
  let t : Todo :=
    { id := db.nextTodoId, text := it.text, completed := it.completed.getD false,
      userId := userId, createdAt := now, completedAt := none }
  (t, { db with todos := db.todos ++ [t], nextTodoId := db.nextTodoId + 1 })

/-- The set-clause built by DatabaseStorage.updateTodo: spread the
update payload, then, when the completed field is present, override
completedAt with now or null according to the flag. -/
def applyUpdate (upd : UpdateTodo) (now : Nat) (t : Todo) : Todo :=
  { t with
    text := upd.text.getD t.text,
    completed := upd.completed.getD t.completed,
    completedAt :=
      match upd.completed with
      | some b => if b then some now else none
      | none => upd.completedAt.getD t.completedAt }

/-- DatabaseStorage.updateTodo: update every row where id = id AND
user_id = userId with the set-clause, return the first updated row (or
none when no row matched). -/
def updateTodo (db : DB) (id : Nat) (upd : UpdateTodo) (userId now : Nat) :
    Option Todo × DB :=
  let todos' := db.todos.map
    (fun t => if todoMatch id userId t then applyUpdate upd now t else t)
  (todos'.find? (todoMatch id userId), { db with todos := todos' })

/-- DatabaseStorage.deleteTodo: delete where id = id AND user_id =
userId; the result is rowCount > 0, i.e. whether any row was removed. -/
def deleteTodo (db : DB) (id userId : Nat) : Bool × DB :=
  let todos' := db.todos.filter (fun t => !(todoMatch id userId t))
  (decide (todos'.length < db.todos.length), { db with todos := todos' })

/-! Route handlers, mirroring server/routes.ts. Each handler is the
body of the route after the zod parse step; the HTTP status and JSON
body are captured by a small result type per route. -/

/-- The user object embedded in register, login and me responses:
exactly the fields id, email, firstName, lastName of the row. -/
structure PublicUser where
  id : Nat
  email : String
  firstName : Option String
  lastName : Option String
deriving Repr, DecidableEq

/-- The projection { id, email, firstName, lastName } applied to a user
row by the register, login and me handlers. -/
def toPublicUser (u : User) : PublicUser :=
  ⟨u.id, u.email, u.firstName, u.lastName⟩

/-- Outcome of POST /api/auth/register: 201 with the public user, or
400 when the email is taken. -/
inductive RegisterResp where
  | created (user : PublicUser)
  | emailTaken (message : String)
deriving Repr, DecidableEq

/-- POST /api/auth/register: reject with 400 "Email already registered"
when getUserByEmail finds a row, otherwise createUser and answer 201
with the public projection of the new row. -/
def registerUser (hash : String → String) (db : DB) (iu : InsertUser) (now : Nat) :
    RegisterResp × DB :=
  match getUserByEmail db iu.email with
  | some _ => (.emailTaken "Email already registered", db)
  | none =>
      let (u, db') := createUser hash db iu now
      (.created (toPublicUser u), db')

/-- Outcome of POST /api/auth/login: 200 with the public user, or 401
with the strategy message. -/
inductive LoginResp where
  | ok (user : PublicUser)
  | unauthorized (message : String)
deriving Repr, DecidableEq

/-- POST /api/auth/login via the local strategy (server/auth.ts): a
null from authenticateUser becomes 401 with the fixed message
"Invalid email or password"; a user becomes a session and 200 with the
public projection. -/
def login (cmp : String → String → Bool) (db : DB) (email password : String) :
    LoginResp :=
  match authenticateUser cmp db email password with
  | some u => .ok (toPublicUser u)
  | none => .unauthorized "Invalid email or password"

/-- GET /api/auth/me for an authenticated user resolved from the
session: 200 with the public projection of the row. -/
def meHandler (u : User) : PublicUser := toPublicUser u

/-- The generic forgot-password message sent whether or not the account
exists. -/
def genericResetMsg : String :=
  "If an account with this email exists, a password reset link has been sent."

/-- The message sent when the email service fails for a registered
account. -/
def emailUnavailableMsg : String :=
  "Email service is currently unavailable. For demo purposes, use the reset token provided."

/-- Response of POST /api/auth/forgot-password: status, message, and
the token optionally disclosed in development mode. -/
structure ForgotResp where
  status : Nat
  message : String
  resetToken : Option String
deriving Repr, DecidableEq

/-- POST /api/auth/forgot-password: unknown email answers 200 with the
generic message and no state change; known email stores a fresh token
row and answers 200 — with the generic message when delivery succeeds,
or with the unavailable-service message (token included only in
development mode) when sendPasswordResetEmail returns false or throws.
`freshToken` stands for the crypto.randomBytes token, `emailSent` for
the delivery outcome, `isDev` for NODE_ENV = development. -/
def forgotPassword (db : DB) (email freshToken : String)
    (emailSent isDev : Bool) (now : Nat) : ForgotResp × DB :=
  match getUserByEmail db email with
  | none => (⟨200, genericResetMsg, none⟩, db)
  | some _ =>
      let db' := createPasswordReset db email freshToken now
      if emailSent then (⟨200, genericResetMsg, none⟩, db')
      else (⟨200, emailUnavailableMsg, if isDev then some freshToken else none⟩, db')

/-- Outcome of POST /api/auth/reset-password: 200 on success, or one of
the two 400 rejections. -/
inductive ResetResult where
  | ok
  | invalidToken
  | expiredToken
deriving Repr, DecidableEq

/-- HTTP status of a reset-password outcome: 200 for success, 400 for
either rejection. -/
def ResetResult.status : ResetResult → Nat
  | .ok => 200
  | .invalidToken => 400
  | .expiredToken => 400

/-- POST /api/auth/reset-password: look up an unconsumed row for the
token (400 "Invalid or expired reset token" when absent); 400 "Reset
token has expired" when now > expiresAt; otherwise re-hash the password
of the owning email, mark every row with the token used, and answer
200. -/
def resetPassword (hash : String → String) (db : DB)
    (token password : String) (now : Nat) : ResetResult × DB :=
  match getPasswordReset db token with
  | none => (.invalidToken, db)
  | some r =>
      if r.expiresAt < now then (.expiredToken, db)
      else
        let db1 := updateUserPassword hash db r.email password
        let db2 := markPasswordResetUsed db1 token
        (.ok, db2)

/-- Invariant of the users table enforced at registration: emails are
pairwise distinct across the user rows. -/
def EmailsUnique (db : DB) : Prop :=
  db.users.Pairwise (fun a b => a.email ≠ b.email)

/-- Store states reachable from the empty store through the todo write
operations createTodo and updateTodo, with arbitrary request payloads
admitted by the zod schemas. -/
inductive ReachState : DB → Prop where
  | init : ReachState emptyDB
  | create (db : DB) (it : InsertTodo) (uid now : Nat) :
      ReachState db → ReachState (createTodo db it uid now).2
  | update (db : DB) (i : Nat) (upd : UpdateTodo) (uid now : Nat) :
      ReachState db → ReachState (updateTodo db i upd uid now).2

/-- Store states reachable through createTodo and updateTodo when every
creation leaves the completed flag false (its column default) and no
update supplies a completedAt value without a completed flag. -/
inductive ReachStateOk : DB → Prop where
  | init : ReachStateOk emptyDB
  | create (db : DB) (it : InsertTodo) (uid now : Nat) :
      ReachStateOk db → it.completed.getD false = false →
      ReachStateOk (createTodo db it uid now).2
  | update (db : DB) (i : Nat) (upd : UpdateTodo) (uid now : Nat) :
      ReachStateOk db → (upd.completed = none → upd.completedAt = none) →
      ReachStateOk (updateTodo db i upd uid now).2

/-! Helper lemmas about the drizzle update/delete shapes: an update
statement is a map that rewrites exactly the rows matching the
where-predicate, a delete is a filter. -/

/-- Finding the first match in a list after an update that rewrites the
matching rows is the rewrite of the first match, provided the rewrite
preserves the predicate. -/
theorem find?_update_map {α : Type} (p : α → Bool) (g : α → α)
    (hg : ∀ a, p a = true → p (g a) = true) (l : List α) :
    (l.map (fun a => if p a then g a else a)).find? p = (l.find? p).map g := by
  induction l with
  | nil => rfl
  | cons a tl ih =>
      by_cases h : p a = true
      · simp [List.map_cons, h, List.find?_cons_of_pos _ (hg a h),
          List.find?_cons_of_pos _ h]
      · have h' : p a = false := by revert h; cases p a <;> simp
        simp [List.map_cons, h', List.find?_cons_of_neg, ih]

/-- An update whose where-predicate matches no row leaves the list
unchanged. -/
theorem map_update_no_match {α : Type} (p : α → Bool) (g : α → α) (l : List α)
    (h : ∀ a ∈ l, p a = false) :
    l.map (fun a => if p a then g a else a) = l := by
  induction l with
  | nil => rfl
  | cons a tl ih =>
      have ha := h a (List.mem_cons_self a tl)
      simp [List.map_cons, ha]
      exact ih fun b hb => h b (List.mem_cons_of_mem a hb)

/-- A delete whose where-predicate matches no row leaves the list
unchanged. -/
theorem filter_delete_no_match {α : Type} (p : α → Bool) (l : List α)
    (h : ∀ a ∈ l, p a = false) :
    l.filter (fun a => !(p a)) = l := by
  apply List.filter_eq_self.mpr
  intro a ha
  simp [h a ha]

end TodoApp

namespace TodoApp

/-- C4: failure of authentication because the email is unknown and
failure because the password does not match the stored hash are
indistinguishable: authenticateUser returns none in both cases, and the
login route answers the same 401 message "Invalid email or password" in
both cases, so the two responses are equal. -/
theorem c4_login_failures_indistinguishable
    (cmp cmp' : String → String → Bool) (db db' : DB)
    (email password email' password' : String)
    (hmiss : getUserByEmail db email = none)
    (hwrong : ∃ u, getUserByEmail db' email' = some u ∧
      cmp' password' u.password = false) :
    authenticateUser cmp db email password = none ∧
    authenticateUser cmp' db' email' password' = none ∧
    login cmp db email password = .unauthorized "Invalid email or password" ∧
    login cmp' db' email' password' = .unauthorized "Invalid email or password" ∧
    login cmp db email password = login cmp' db' email' password' := by
  obtain ⟨u, hu, hcmp⟩ := hwrong
  have h1 : authenticateUser cmp db email password = none := by
    simp [authenticateUser, hmiss]
  have h2 : authenticateUser cmp' db' email' password' = none := by
    simp [authenticateUser, hu, hcmp]
  refine ⟨h1, h2, ?_, ?_, ?_⟩ <;> simp [login, h1, h2]

/-- Witness for C4 at a concrete store: user 1 is registered with email
a@x.com; the run with the unknown email b@x.com and the run with the
wrong password against a@x.com both produce none and the same 401. -/
theorem c4_witness :
    authenticateUser (fun p h => p ++ "#h" == h) ⟨[⟨1, "a@x.com", "pw#h", none, none, 0⟩], [], [], 2, 1, 1⟩ "b@x.com" "x" = none ∧
    authenticateUser (fun p h => p ++ "#h" == h) ⟨[⟨1, "a@x.com", "pw#h", none, none, 0⟩], [], [], 2, 1, 1⟩ "a@x.com" "wrong" = none ∧
    login (fun p h => p ++ "#h" == h) ⟨[⟨1, "a@x.com", "pw#h", none, none, 0⟩], [], [], 2, 1, 1⟩ "b@x.com" "x" = .unauthorized "Invalid email or password" ∧
    login (fun p h => p ++ "#h" == h) ⟨[⟨1, "a@x.com", "pw#h", none, none, 0⟩], [], [], 2, 1, 1⟩ "a@x.com" "wrong" = .unauthorized "Invalid email or password" ∧
    login (fun p h => p ++ "#h" == h) ⟨[⟨1, "a@x.com", "pw#h", none, none, 0⟩], [], [], 2, 1, 1⟩ "b@x.com" "x" =
      login (fun p h => p ++ "#h" == h) ⟨[⟨1, "a@x.com", "pw#h", none, none, 0⟩], [], [], 2, 1, 1⟩ "a@x.com" "wrong" :=
  c4_login_failures_indistinguishable
    (fun p h => p ++ "#h" == h) (fun p h => p ++ "#h" == h)
    ⟨[⟨1, "a@x.com", "pw#h", none, none, 0⟩], [], [], 2, 1, 1⟩
    ⟨[⟨1, "a@x.com", "pw#h", none, none, 0⟩], [], [], 2, 1, 1⟩
    "b@x.com" "x" "a@x.com" "wrong" (by decide)
    ⟨⟨1, "a@x.com", "pw#h", none, none, 0⟩, by decide, by decide⟩

/-- C9: getAllTodos userId returns exactly the todos owned by userId —
a permutation of the owner filter of the table, with membership
characterised by ownership — ordered by creation timestamp ascending. -/
theorem c9_get_all_todos_owner_sorted (db : DB) (userId : Nat) :
    (getAllTodos db userId).Perm
      (db.todos.filter (fun t => t.userId == userId)) ∧
    (∀ t : Todo, t ∈ getAllTodos db userId ↔ t ∈ db.todos ∧ t.userId = userId) ∧
    List.Pairwise (fun a b : Todo => a.createdAt ≤ b.createdAt)
      (getAllTodos db userId) := by
  have hperm : (getAllTodos db userId).Perm
      (db.todos.filter (fun t => t.userId == userId)) :=
    List.mergeSort_perm _ _
  refine ⟨hperm, ?_, ?_⟩
  · intro t
    rw [hperm.mem_iff, List.mem_filter]
    simp
  · have hs := @List.sorted_mergeSort Todo
      (fun a b : Todo => decide (a.createdAt ≤ b.createdAt))
      (fun a b c hab hbc => by
        simp only [decide_eq_true_eq] at *
        exact Nat.le_trans hab hbc)
      (fun a b => by
        simp only [Bool.or_eq_true, decide_eq_true_eq]
        exact Nat.le_total a.createdAt b.createdAt)
      (db.todos.filter (fun t => t.userId == userId))
    unfold getAllTodos
    exact hs.imp (fun h => by simpa using h)

/-- C10: the success responses of register, login and me expose exactly
the four public fields id, email, firstName, lastName and never the
stored password hash: each payload equals the public projection of the
row, and the projection is independent of the password and created_at
columns. -/
theorem c10_responses_hide_password_hash :
    (∀ (hash : String → String) (db : DB) (iu : InsertUser) (now : Nat)
      (p : PublicUser) (db' : DB),
      registerUser hash db iu now = (.created p, db') →
      p = ⟨db.nextUserId, iu.email, iu.firstName, iu.lastName⟩) ∧
    (∀ (cmp : String → String → Bool) (db : DB) (email password : String)
      (u : User), authenticateUser cmp db email password = some u →
      login cmp db email password = .ok ⟨u.id, u.email, u.firstName, u.lastName⟩) ∧
    (∀ u : User, meHandler u = ⟨u.id, u.email, u.firstName, u.lastName⟩) ∧
    (∀ (i : Nat) (e p₁ p₂ : String) (fn ln : Option String) (c₁ c₂ : Nat),
      toPublicUser ⟨i, e, p₁, fn, ln, c₁⟩ = toPublicUser ⟨i, e, p₂, fn, ln, c₂⟩) := by
  refine ⟨?_, ?_, ?_, ?_⟩
  · intro hash db iu now p db' h
    unfold registerUser at h
    cases hm : getUserByEmail db iu.email <;> rw [hm] at h
    · simp [createUser, toPublicUser] at h
      exact h.1.symm
    · simp at h
  · intro cmp db email password u h
    simp [login, h, toPublicUser]
  · intro u; rfl
  · intro i e p₁ p₂ fn ln c₁ c₂; rfl

/-- Witness for C10: registering a@x.com into the empty store yields
exactly the four public fields; login and me likewise on a concrete
user row. -/
theorem c10_witness :
    (⟨1, "a@x.com", none, none⟩ : PublicUser) = ⟨emptyDB.nextUserId, "a@x.com", none, none⟩ ∧
    login (fun p h => p ++ "#h" == h) ⟨[⟨1, "a@x.com", "pw#h", none, none, 0⟩], [], [], 2, 1, 1⟩ "a@x.com" "pw" = .ok ⟨1, "a@x.com", none, none⟩ ∧
    meHandler ⟨1, "a@x.com", "pw#h", none, none, 0⟩ = ⟨1, "a@x.com", none, none⟩ ∧
    toPublicUser ⟨1, "a@x.com", "hashA", none, none, 0⟩ = toPublicUser ⟨1, "a@x.com", "hashB", none, none, 9⟩ :=
  ⟨c10_responses_hide_password_hash.1 (fun s => s ++ "#h") emptyDB
      ⟨"a@x.com", "pw", none, none⟩ 0 ⟨1, "a@x.com", none, none⟩
      (registerUser (fun s => s ++ "#h") emptyDB ⟨"a@x.com", "pw", none, none⟩ 0).2
      (by decide),
    c10_responses_hide_password_hash.2.1 (fun p h => p ++ "#h" == h)
      ⟨[⟨1, "a@x.com", "pw#h", none, none, 0⟩], [], [], 2, 1, 1⟩ "a@x.com" "pw"
      ⟨1, "a@x.com", "pw#h", none, none, 0⟩ (by decide),
    c10_responses_hide_password_hash.2.2.1 ⟨1, "a@x.com", "pw#h", none, none, 0⟩,
    c10_responses_hide_password_hash.2.2.2 1 "a@x.com" "hashA" "hashB" none none 0 9⟩

/-- C8: when a user with the requested email already exists,
registration answers 400 "Email already registered" and leaves the
store — in particular the set of user rows — unchanged; and the
register route preserves email uniqueness of the users table. -/
theorem c8_duplicate_email_rejected (hash : String → String) (db : DB)
    (iu : InsertUser) (now : Nat) :
    ((∃ u ∈ db.users, u.email = iu.email) →
      registerUser hash db iu now = (.emailTaken "Email already registered", db)) ∧
    (EmailsUnique db → EmailsUnique (registerUser hash db iu now).2) := by
  constructor
  · rintro ⟨u, hu, he⟩
    have : (getUserByEmail db iu.email).isSome := by
      rw [getUserByEmail, List.find?_isSome]
      exact ⟨u, hu, by simp [he]⟩
    unfold registerUser
    cases hm : getUserByEmail db iu.email
    · rw [hm] at this; simp at this
    · rfl
  · intro huniq
    unfold registerUser
    cases hm : getUserByEmail db iu.email with
    | some u => exact huniq
    | none =>
        have hnone : ∀ u ∈ db.users, u.email ≠ iu.email := by
          intro u hu
          have := List.find?_eq_none.mp hm u hu
          simpa using this
        simp only [createUser, EmailsUnique]
        rw [List.pairwise_append]
        refine ⟨huniq, List.pairwise_singleton _ _, ?_⟩
        intro a ha b hb
        rw [List.mem_singleton.mp hb]
        exact hnone a ha

/-- Witness for C8: with a@x.com already registered, a second
registration with a@x.com is the 400 rejection with an unchanged store,
and uniqueness is preserved on a concrete store for a fresh email. -/
theorem c8_witness :
    registerUser (fun s => s ++ "#h") ⟨[⟨1, "a@x.com", "pw#h", none, none, 0⟩], [], [], 2, 1, 1⟩ ⟨"a@x.com", "secret2", none, none⟩ 9 =
      (.emailTaken "Email already registered", ⟨[⟨1, "a@x.com", "pw#h", none, none, 0⟩], [], [], 2, 1, 1⟩) ∧
    EmailsUnique (registerUser (fun s => s ++ "#h") ⟨[⟨1, "a@x.com", "pw#h", none, none, 0⟩], [], [], 2, 1, 1⟩ ⟨"b@x.com", "secret2", none, none⟩ 9).2 :=
  ⟨(c8_duplicate_email_rejected (fun s => s ++ "#h")
      ⟨[⟨1, "a@x.com", "pw#h", none, none, 0⟩], [], [], 2, 1, 1⟩
      ⟨"a@x.com", "secret2", none, none⟩ 9).1
      ⟨⟨1, "a@x.com", "pw#h", none, none, 0⟩, by decide, rfl⟩,
    (c8_duplicate_email_rejected (fun s => s ++ "#h")
      ⟨[⟨1, "a@x.com", "pw#h", none, none, 0⟩], [], [], 2, 1, 1⟩
      ⟨"b@x.com", "secret2", none, none⟩ 9).2
      (by simp [EmailsUnique])⟩

/-- The set-clause of updateTodo preserves the where-predicate: it
never changes id or user_id. -/
theorem applyUpdate_todoMatch (upd : UpdateTodo) (now id userId : Nat) (t : Todo)
    (h : todoMatch id userId t = true) :
    todoMatch id userId (applyUpdate upd now t) = true := h

/-- updateTodo returns the rewrite of the first row matching (id AND
user_id), when one exists. -/
theorem updateTodo_find (db : DB) (id : Nat) (upd : UpdateTodo) (userId now : Nat) :
    (updateTodo db id upd userId now).1 =
      (db.todos.find? (todoMatch id userId)).map (applyUpdate upd now) :=
  find?_update_map (todoMatch id userId) (applyUpdate upd now)
    (applyUpdate_todoMatch upd now id userId) db.todos

/-- C7: a partial update disturbs only the fields present in the
request: the returned (and stored) row is the set-clause applied to the
first matching row; id, user_id and created_at are always preserved; a
request without a text field preserves text; a request with neither a
completed flag nor a completedAt value preserves both the flag and the
completion timestamp. -/
theorem c7_partial_update_frame (db : DB) (id userId now : Nat)
    (upd : UpdateTodo) (t₀ : Todo)
    (hfind : db.todos.find? (todoMatch id userId) = some t₀) :
    (updateTodo db id upd userId now).1 = some (applyUpdate upd now t₀) ∧
    (applyUpdate upd now t₀).id = t₀.id ∧
    (applyUpdate upd now t₀).userId = t₀.userId ∧
    (applyUpdate upd now t₀).createdAt = t₀.createdAt ∧
    (upd.text = none → (applyUpdate upd now t₀).text = t₀.text) ∧
    (upd.completed = none → upd.completedAt = none →
      (applyUpdate upd now t₀).completed = t₀.completed ∧
      (applyUpdate upd now t₀).completedAt = t₀.completedAt) := by
  refine ⟨?_, rfl, rfl, rfl, ?_, ?_⟩
  · rw [updateTodo_find, hfind]; rfl
  · intro ht; simp [applyUpdate, ht]
  · intro hc hca; simp [applyUpdate, hc, hca]

/-- Witness for C7 on a concrete one-row store: a text-only update
keeps the flag and timestamp, and the fixed columns are kept. -/
theorem c7_witness :
    (updateTodo ⟨[], [], [⟨1, "old", true, 7, 3, some 4⟩], 1, 1, 2⟩ 1 ⟨some "new", none, none⟩ 7 50).1 =
      some (applyUpdate ⟨some "new", none, none⟩ 50 ⟨1, "old", true, 7, 3, some 4⟩) ∧
    (applyUpdate ⟨some "new", none, none⟩ 50 ⟨1, "old", true, 7, 3, some 4⟩).id = 1 ∧
    (applyUpdate ⟨some "new", none, none⟩ 50 ⟨1, "old", true, 7, 3, some 4⟩).userId = 7 ∧
    (applyUpdate ⟨some "new", none, none⟩ 50 ⟨1, "old", true, 7, 3, some 4⟩).createdAt = 3 ∧
    (applyUpdate ⟨some "new", none, none⟩ 50 ⟨1, "old", true, 7, 3, some 4⟩).completed = true ∧
    (applyUpdate ⟨some "new", none, none⟩ 50 ⟨1, "old", true, 7, 3, some 4⟩).completedAt = some 4 := by
  have h := c7_partial_update_frame
    ⟨[], [], [⟨1, "old", true, 7, 3, some 4⟩], 1, 1, 2⟩ 1 7 50
    ⟨some "new", none, none⟩ ⟨1, "old", true, 7, 3, some 4⟩ (by decide)
  obtain ⟨h1, h2, h3, h4, h5, h6⟩ := h
  have h6' := h6 rfl rfl
  exact ⟨h1, h2, h3, h4, h6'.1, h6'.2⟩

/-- C6: an update whose completed field is true stamps completedAt with
the current time and one whose completed field is false clears it to
null; toggling true, then false, then true on an existing row therefore
returns completedAt = the first time, then null, then the third time,
strictly later than the first when the clock advanced. -/
theorem c6_completed_toggle_timestamps (db : DB) (id userId now : Nat)
    (upd : UpdateTodo) (t₀ : Todo)
    (hfind : db.todos.find? (todoMatch id userId) = some t₀)
    (t1 t2 t3 : Nat) (h13 : t1 < t3) :
    (upd.completed = some true → ∀ t', (updateTodo db id upd userId now).1 = some t' →
      t'.completedAt = some now) ∧
    (upd.completed = some false → ∀ t', (updateTodo db id upd userId now).1 = some t' →
      t'.completedAt = none) ∧
    (∃ a b c : Todo,
      (updateTodo db id ⟨none, some true, none⟩ userId t1).1 = some a ∧
      (updateTodo (updateTodo db id ⟨none, some true, none⟩ userId t1).2
        id ⟨none, some false, none⟩ userId t2).1 = some b ∧
      (updateTodo (updateTodo (updateTodo db id ⟨none, some true, none⟩ userId t1).2
        id ⟨none, some false, none⟩ userId t2).2
        id ⟨none, some true, none⟩ userId t3).1 = some c ∧
      a.completedAt = some t1 ∧ b.completedAt = none ∧
      c.completedAt = some t3 ∧ t1 < t3) := by
  refine ⟨?_, ?_, ?_⟩
  · intro hc t' h'
    rw [updateTodo_find, hfind] at h'
    have h'' : some (applyUpdate upd now t₀) = some t' := h'
    cases h''
    simp [applyUpdate, hc]
  · intro hc t' h'
    rw [updateTodo_find, hfind] at h'
    have h'' : some (applyUpdate upd now t₀) = some t' := h'
    cases h''
    simp [applyUpdate, hc]
  · have e1 := updateTodo_find db id ⟨none, some true, none⟩ userId t1
    rw [hfind] at e1
    have f1 : (updateTodo db id ⟨none, some true, none⟩ userId t1).2.todos.find?
        (todoMatch id userId) =
        some (applyUpdate ⟨none, some true, none⟩ t1 t₀) := e1
    have e2 := updateTodo_find (updateTodo db id ⟨none, some true, none⟩ userId t1).2
      id ⟨none, some false, none⟩ userId t2
    rw [f1] at e2
    have f2 : (updateTodo (updateTodo db id ⟨none, some true, none⟩ userId t1).2
        id ⟨none, some false, none⟩ userId t2).2.todos.find? (todoMatch id userId) =
        some (applyUpdate ⟨none, some false, none⟩ t2
          (applyUpdate ⟨none, some true, none⟩ t1 t₀)) := e2
    have e3 := updateTodo_find
      (updateTodo (updateTodo db id ⟨none, some true, none⟩ userId t1).2
        id ⟨none, some false, none⟩ userId t2).2
      id ⟨none, some true, none⟩ userId t3
    rw [f2] at e3
    exact ⟨_, _, _, e1, e2, e3, rfl, rfl, rfl, h13⟩

/-- Witness for C6 on a concrete one-row store with the clock at 10,
20, 30. -/
theorem c6_witness :
    ((some true : Option Bool) = some true →
      ∀ t', (updateTodo ⟨[], [], [⟨1, "x", false, 7, 0, none⟩], 1, 1, 2⟩ 1 ⟨none, some true, none⟩ 7 10).1 = some t' →
        t'.completedAt = some 10) ∧
    ((some true : Option Bool) = some false →
      ∀ t', (updateTodo ⟨[], [], [⟨1, "x", false, 7, 0, none⟩], 1, 1, 2⟩ 1 ⟨none, some true, none⟩ 7 10).1 = some t' →
        t'.completedAt = none) ∧
    (∃ a b c : Todo,
      (updateTodo ⟨[], [], [⟨1, "x", false, 7, 0, none⟩], 1, 1, 2⟩ 1 ⟨none, some true, none⟩ 7 10).1 = some a ∧
      (updateTodo (updateTodo ⟨[], [], [⟨1, "x", false, 7, 0, none⟩], 1, 1, 2⟩ 1 ⟨none, some true, none⟩ 7 10).2
        1 ⟨none, some false, none⟩ 7 20).1 = some b ∧
      (updateTodo (updateTodo (updateTodo ⟨[], [], [⟨1, "x", false, 7, 0, none⟩], 1, 1, 2⟩ 1 ⟨none, some true, none⟩ 7 10).2
        1 ⟨none, some false, none⟩ 7 20).2
        1 ⟨none, some true, none⟩ 7 30).1 = some c ∧
      a.completedAt = some 10 ∧ b.completedAt = none ∧
      c.completedAt = some 30 ∧ 10 < 30) :=
  c6_completed_toggle_timestamps
    ⟨[], [], [⟨1, "x", false, 7, 0, none⟩], 1, 1, 2⟩ 1 7 10
    ⟨none, some true, none⟩ ⟨1, "x", false, 7, 0, none⟩ (by decide)
    10 20 30 (by decide)

/-- C2: a todo owned by A is invisible to an authenticated B distinct
from A: getTodo, updateTodo and deleteTodo called with its id and the
id of B produce exactly the results of a nonexistent id — none, none,
false — and leave the store, hence the todo of A and every other row,
unchanged. -/
theorem c2_cross_user_not_found (db : DB) (i j uidA uidB now : Nat)
    (upd : UpdateTodo) (t : Todo)
    (ht : t ∈ db.todos) (hid : t.id = i) (hown : t.userId = uidA)
    (hBA : uidB ≠ uidA)
    (huniq : ∀ t' ∈ db.todos, t'.id = i → t' = t)
    (hj : ∀ t' ∈ db.todos, t'.id ≠ j) :
    getTodo db i uidB = none ∧
    updateTodo db i upd uidB now = (none, db) ∧
    deleteTodo db i uidB = (false, db) ∧
    getTodo db j uidB = none ∧
    updateTodo db j upd uidB now = (none, db) ∧
    deleteTodo db j uidB = (false, db) ∧
    getTodo db i uidB = getTodo db j uidB ∧
    updateTodo db i upd uidB now = updateTodo db j upd uidB now ∧
    deleteTodo db i uidB = deleteTodo db j uidB := by
  have hnoI : ∀ t' ∈ db.todos, todoMatch i uidB t' = false := by
    intro t' ht'
    by_cases h : t'.id = i
    · have : t' = t := huniq t' ht' h
      subst this
      simp [todoMatch, hown, Ne.symm hBA]
    · simp [todoMatch, h]
  have hnoJ : ∀ t' ∈ db.todos, todoMatch j uidB t' = false := by
    intro t' ht'
    simp [todoMatch, hj t' ht']
  have hget : ∀ k : Nat, (∀ t' ∈ db.todos, todoMatch k uidB t' = false) →
      getTodo db k uidB = none := by
    intro k hk
    apply List.find?_eq_none.mpr
    intro x hx
    rw [hk x hx]
    simp
  have hupd : ∀ k : Nat, (∀ t' ∈ db.todos, todoMatch k uidB t' = false) →
      updateTodo db k upd uidB now = (none, db) := by
    intro k hk
    have hmap : db.todos.map
        (fun t => if todoMatch k uidB t then applyUpdate upd now t else t) =
        db.todos := map_update_no_match _ _ _ hk
    unfold updateTodo
    simp only [hmap]
    rw [List.find?_eq_none.mpr (fun x hx => by rw [hk x hx]; simp)]
  have hdel : ∀ k : Nat, (∀ t' ∈ db.todos, todoMatch k uidB t' = false) →
      deleteTodo db k uidB = (false, db) := by
    intro k hk
    have hfil : db.todos.filter (fun t => !(todoMatch k uidB t)) = db.todos :=
      filter_delete_no_match _ _ hk
    unfold deleteTodo
    simp only [hfil]
    simp
  refine ⟨hget i hnoI, hupd i hnoI, hdel i hnoI,
    hget j hnoJ, hupd j hnoJ, hdel j hnoJ, ?_, ?_, ?_⟩
  · rw [hget i hnoI, hget j hnoJ]
  · rw [hupd i hnoI, hupd j hnoJ]
  · rw [hdel i hnoI, hdel j hnoJ]

/-- Witness for C2: user 7 owns todo 1; user 8 probing ids 1 and 5 gets
the identical not-found outcomes and the store is untouched. -/
theorem c2_witness :
    getTodo ⟨[], [], [⟨1, "x", false, 7, 0, none⟩], 1, 1, 2⟩ 1 8 = none ∧
    updateTodo ⟨[], [], [⟨1, "x", false, 7, 0, none⟩], 1, 1, 2⟩ 1 ⟨none, some true, none⟩ 8 10 =
      (none, ⟨[], [], [⟨1, "x", false, 7, 0, none⟩], 1, 1, 2⟩) ∧
    deleteTodo ⟨[], [], [⟨1, "x", false, 7, 0, none⟩], 1, 1, 2⟩ 1 8 =
      (false, ⟨[], [], [⟨1, "x", false, 7, 0, none⟩], 1, 1, 2⟩) ∧
    getTodo ⟨[], [], [⟨1, "x", false, 7, 0, none⟩], 1, 1, 2⟩ 5 8 = none ∧
    updateTodo ⟨[], [], [⟨1, "x", false, 7, 0, none⟩], 1, 1, 2⟩ 5 ⟨none, some true, none⟩ 8 10 =
      (none, ⟨[], [], [⟨1, "x", false, 7, 0, none⟩], 1, 1, 2⟩) ∧
    deleteTodo ⟨[], [], [⟨1, "x", false, 7, 0, none⟩], 1, 1, 2⟩ 5 8 =
      (false, ⟨[], [], [⟨1, "x", false, 7, 0, none⟩], 1, 1, 2⟩) ∧
    getTodo ⟨[], [], [⟨1, "x", false, 7, 0, none⟩], 1, 1, 2⟩ 1 8 =
      getTodo ⟨[], [], [⟨1, "x", false, 7, 0, none⟩], 1, 1, 2⟩ 5 8 ∧
    updateTodo ⟨[], [], [⟨1, "x", false, 7, 0, none⟩], 1, 1, 2⟩ 1 ⟨none, some true, none⟩ 8 10 =
      updateTodo ⟨[], [], [⟨1, "x", false, 7, 0, none⟩], 1, 1, 2⟩ 5 ⟨none, some true, none⟩ 8 10 ∧
    deleteTodo ⟨[], [], [⟨1, "x", false, 7, 0, none⟩], 1, 1, 2⟩ 1 8 =
      deleteTodo ⟨[], [], [⟨1, "x", false, 7, 0, none⟩], 1, 1, 2⟩ 5 8 :=
  c2_cross_user_not_found ⟨[], [], [⟨1, "x", false, 7, 0, none⟩], 1, 1, 2⟩
    1 5 7 8 10 ⟨none, some true, none⟩ ⟨1, "x", false, 7, 0, none⟩
    (by decide) rfl rfl (by decide)
    (by intro t' ht' h; simpa using List.mem_singleton.mp ht')
    (by intro t' ht'; rw [List.mem_singleton.mp ht']; decide)

/-- Counterexample to C3 as stated: creating a todo with the completed
flag already true (admitted by insertTodoSchema) stores completed =
true with a null completion timestamp, so the claimed reachable-state
equivalence between a non-null timestamp and a true flag is false. -/
theorem c3_counterexample :
    ¬ (∀ db : DB, ReachState db → ∀ t ∈ db.todos,
        (t.completedAt ≠ none ↔ t.completed = true)) := by
  intro h
  have hr : ReachState (createTodo emptyDB ⟨"x", some true⟩ 1 0).2 :=
    ReachState.create emptyDB ⟨"x", some true⟩ 1 0 ReachState.init
  have hm : (⟨1, "x", true, 1, 0, none⟩ : Todo) ∈
      (createTodo emptyDB ⟨"x", some true⟩ 1 0).2.todos := by decide
  exact (h _ hr _ hm).mpr rfl rfl

/-- C3 amended: in every store state reachable through createTodo calls
that leave the completed flag false and updateTodo calls that do not
supply completedAt without the completed flag, a completion timestamp
is non-null exactly when the completed flag is true; a todo created
with completed already true, by contrast, violates the equivalence. -/
theorem c3_amended_completed_iff_timestamp (db : DB) (h : ReachStateOk db) :
    ∀ t ∈ db.todos, (t.completedAt ≠ none ↔ t.completed = true) := by
  induction h with
  | init => intro t ht; simp [emptyDB] at ht
  | create db it uid now hr hc ih =>
      intro t ht
      simp only [createTodo] at ht
      rw [List.mem_append] at ht
      cases ht with
      | inl h1 => exact ih t h1
      | inr h2 =>
          rw [List.mem_singleton] at h2
          subst h2
          simp [hc]
  | update db i upd uid now hr hc ih =>
      intro t ht
      simp only [updateTodo] at ht
      rw [List.mem_map] at ht
      obtain ⟨t₀, ht₀, rfl⟩ := ht
      by_cases hm : todoMatch i uid t₀ = true
      · rw [if_pos hm]
        cases hcompleted : upd.completed with
        | some b =>
            cases b <;> simp [applyUpdate, hcompleted]
        | none =>
            have hca := hc hcompleted
            simp only [applyUpdate, hcompleted, hca, Option.getD_none]
            exact ih t₀ ht₀
      · rw [if_neg hm]
        exact ih t₀ ht₀

/-- Witness for the amended C3: create a todo (completed false), then
toggle it completed at time 5; the stored row has flag true and
timestamp 5, satisfying the equivalence. -/
theorem c3_witness :
    ((⟨1, "x", true, 1, 0, some 5⟩ : Todo).completedAt ≠ none ↔
      (⟨1, "x", true, 1, 0, some 5⟩ : Todo).completed = true) :=
  c3_amended_completed_iff_timestamp
    (updateTodo (createTodo emptyDB ⟨"x", none⟩ 1 0).2 1 ⟨none, some true, none⟩ 1 5).2
    (ReachStateOk.update (createTodo emptyDB ⟨"x", none⟩ 1 0).2 1
      ⟨none, some true, none⟩ 1 5
      (ReachStateOk.create emptyDB ⟨"x", none⟩ 1 0 ReachStateOk.init rfl)
      (fun h => nomatch h))
    ⟨1, "x", true, 1, 0, some 5⟩ (by decide)

/-- Counterexample to C5 as stated: with a@x.com registered and email
delivery failing, the forgot-password response message differs from the
message of the identical run on a store where a@x.com is not
registered — the two runs are distinguishable. -/
theorem c5_counterexample :
    ¬ ((forgotPassword ⟨[⟨1, "a@x.com", "pw#h", none, none, 0⟩], [], [], 2, 1, 1⟩
          "a@x.com" "tok" false false 0).1.message =
        (forgotPassword emptyDB "a@x.com" "tok" false false 0).1.message) := by
  decide

/-- C5 amended: the forgot-password response status is always 200; a
run on a store without the email answers exactly the generic message
with no token and no state change; and whenever email delivery
succeeds, the message is the generic one regardless of whether the
email is registered, so two delivery-succeeding runs differing only in
registration produce the same message. When the email is registered and
delivery fails, however, the message is the service-unavailable one. -/
theorem c5_amended_forgot_password_enumeration (db db' : DB)
    (email freshToken freshToken' : String) (emailSent isDev isDev' : Bool)
    (now now' : Nat) :
    ((forgotPassword db email freshToken emailSent isDev now).1.status = 200) ∧
    (getUserByEmail db email = none →
      (forgotPassword db email freshToken emailSent isDev now).1 =
        ⟨200, genericResetMsg, none⟩ ∧
      (forgotPassword db email freshToken emailSent isDev now).2 = db) ∧
    ((forgotPassword db email freshToken true isDev now).1.message =
      (forgotPassword db' email freshToken' true isDev' now').1.message) ∧
    (∀ u, getUserByEmail db email = some u → emailSent = false →
      (forgotPassword db email freshToken emailSent isDev now).1.message =
        emailUnavailableMsg) := by
  have hmsg : ∀ (d : DB) (tok : String) (dv : Bool) (n : Nat),
      (forgotPassword d email tok true dv n).1.message = genericResetMsg := by
    intro d tok dv n
    unfold forgotPassword
    cases getUserByEmail d email <;> simp
  refine ⟨?_, ?_, ?_, ?_⟩
  · unfold forgotPassword
    cases getUserByEmail db email <;> cases emailSent <;> simp
  · intro h
    unfold forgotPassword
    rw [h]
    exact ⟨rfl, rfl⟩
  · rw [hmsg, hmsg]
  · intro u hu hsent
    unfold forgotPassword
    rw [hu, hsent]
    rfl

/-- Witness for the amended C5: concrete runs on the empty store and on
a store holding a@x.com, with delivery succeeding and failing. -/
theorem c5_witness :
    (forgotPassword emptyDB "a@x.com" "tok" false false 0).1 =
      ⟨200, genericResetMsg, none⟩ ∧
    (forgotPassword emptyDB "a@x.com" "tok" false false 0).2 = emptyDB ∧
    (forgotPassword ⟨[⟨1, "a@x.com", "pw#h", none, none, 0⟩], [], [], 2, 1, 1⟩
        "a@x.com" "t1" true false 3).1.message =
      (forgotPassword emptyDB "a@x.com" "t2" true true 9).1.message ∧
    (forgotPassword ⟨[⟨1, "a@x.com", "pw#h", none, none, 0⟩], [], [], 2, 1, 1⟩
        "a@x.com" "tok" false false 0).1.message = emailUnavailableMsg :=
  ⟨((c5_amended_forgot_password_enumeration emptyDB emptyDB "a@x.com" "tok" "tok"
      false false false 0 0).2.1 (by decide)).1,
    ((c5_amended_forgot_password_enumeration emptyDB emptyDB "a@x.com" "tok" "tok"
      false false false 0 0).2.1 (by decide)).2,
    (c5_amended_forgot_password_enumeration
      ⟨[⟨1, "a@x.com", "pw#h", none, none, 0⟩], [], [], 2, 1, 1⟩ emptyDB
      "a@x.com" "t1" "t2" true false true 3 9).2.2.1,
    (c5_amended_forgot_password_enumeration
      ⟨[⟨1, "a@x.com", "pw#h", none, none, 0⟩], [], [], 2, 1, 1⟩ emptyDB
      "a@x.com" "tok" "tok" false false false 0 0).2.2.2
      ⟨1, "a@x.com", "pw#h", none, none, 0⟩ (by decide) rfl⟩

/-- A row found by getPasswordReset is a stored row carrying the
requested token with used = false. -/
theorem getPasswordReset_spec (db : DB) (tk : String) (r : PasswordReset)
    (h : getPasswordReset db tk = some r) :
    r ∈ db.passwordResets ∧ r.token = tk ∧ r.used = false := by
  have hm := List.mem_of_find?_eq_some h
  have hp := List.find?_some h
  simp only [Bool.and_eq_true, beq_iff_eq] at hp
  exact ⟨hm, hp.1, hp.2⟩

/-- Evaluation of the confirm handler when the token lookup is empty. -/
theorem resetPassword_eq_none (hash : String → String) (db : DB)
    (tk pw : String) (now : Nat) (hg : getPasswordReset db tk = none) :
    resetPassword hash db tk pw now = (.invalidToken, db) := by
  unfold resetPassword
  rw [hg]

/-- Evaluation of the confirm handler when the token lookup finds a
row: the expiry check decides between the 400 and the rewrite of the
store. -/
theorem resetPassword_eq_some (hash : String → String) (db : DB)
    (tk pw : String) (now : Nat) (r : PasswordReset)
    (hg : getPasswordReset db tk = some r) :
    resetPassword hash db tk pw now =
      if r.expiresAt < now then (.expiredToken, db)
      else (.ok, markPasswordResetUsed (updateUserPassword hash db r.email pw) tk) := by
  unfold resetPassword
  rw [hg]

/-- The reset confirm succeeds only when an unconsumed row for the
token exists and is not yet past its expiry. -/
theorem resetPassword_ok_exists (hash : String → String) (db : DB)
    (tk pw : String) (now : Nat)
    (h : (resetPassword hash db tk pw now).1 = .ok) :
    ∃ r, getPasswordReset db tk = some r ∧ now ≤ r.expiresAt := by
  cases hg : getPasswordReset db tk with
  | none => rw [resetPassword_eq_none hash db tk pw now hg] at h; simp at h
  | some r =>
      rw [resetPassword_eq_some hash db tk pw now r hg] at h
      by_cases hexp : r.expiresAt < now
      · rw [if_pos hexp] at h; simp at h
      · exact ⟨r, rfl, Nat.not_lt.mp hexp⟩

/-- When the first unconsumed row for the token is unexpired, the
confirm succeeds, the password of every user with the owning email
becomes the hash of the new password, and every stored row with the
token is marked used. -/
theorem resetPassword_success_state (hash : String → String) (db : DB)
    (tk pw : String) (now : Nat) (r : PasswordReset)
    (hg : getPasswordReset db tk = some r) (hle : now ≤ r.expiresAt) :
    (resetPassword hash db tk pw now).1 = .ok ∧
    (resetPassword hash db tk pw now).2.users =
      db.users.map
        (fun u => if u.email == r.email then { u with password := hash pw } else u) ∧
    (∀ r' ∈ (resetPassword hash db tk pw now).2.passwordResets,
      r'.token = tk → r'.used = true) := by
  rw [resetPassword_eq_some hash db tk pw now r hg, if_neg (Nat.not_lt.mpr hle)]
  refine ⟨rfl, rfl, ?_⟩
  intro r' hr' htk'
  simp only [markPasswordResetUsed, updateUserPassword, List.mem_map] at hr'
  obtain ⟨r₀, hr₀, rfl⟩ := hr'
  by_cases h0 : r₀.token == tk
  · rw [if_pos h0]
  · rw [if_neg h0] at htk' ⊢
    exact absurd (beq_iff_eq.mpr htk') h0

/-- A failing confirm answers a 400 status and leaves the store
untouched. -/
theorem resetPassword_fail_state (hash : String → String) (db : DB)
    (tk pw : String) (now : Nat)
    (h : (resetPassword hash db tk pw now).1 ≠ .ok) :
    (resetPassword hash db tk pw now).1.status = 400 ∧
    (resetPassword hash db tk pw now).2 = db := by
  cases hg : getPasswordReset db tk with
  | none =>
      rw [resetPassword_eq_none hash db tk pw now hg]
      exact ⟨rfl, rfl⟩
  | some r =>
      rw [resetPassword_eq_some hash db tk pw now r hg] at h ⊢
      by_cases hexp : r.expiresAt < now
      · rw [if_pos hexp]
        exact ⟨rfl, rfl⟩
      · rw [if_neg hexp] at h
        exact absurd rfl h

/-- Once every stored row with the token is consumed or past expiry,
the confirm fails at every later time for every password, leaving the
store untouched. -/
theorem resetPassword_dead_token (hash : String → String) (db : DB)
    (tk pw : String) (now : Nat)
    (hall : ∀ r ∈ db.passwordResets, r.token = tk →
      r.used = true ∨ r.expiresAt < now)
    (now' : Nat) (hnow : now ≤ now') :
    (resetPassword hash db tk pw now').1 ≠ .ok ∧
    (resetPassword hash db tk pw now').2 = db := by
  cases hg : getPasswordReset db tk with
  | none =>
      rw [resetPassword_eq_none hash db tk pw now' hg]
      exact ⟨by simp, rfl⟩
  | some r =>
      obtain ⟨hmem, htk, hused⟩ := getPasswordReset_spec db tk r hg
      have hexp : r.expiresAt < now := by
        rcases hall r hmem htk with h | h
        · rw [hused] at h; exact absurd h (by simp)
        · exact h
      rw [resetPassword_eq_some hash db tk pw now' r hg,
        if_pos (Nat.lt_of_lt_of_le hexp hnow)]
      exact ⟨by simp, rfl⟩

/-- C1: the reset-password confirm succeeds exactly when an unconsumed
stored row carries the supplied token and the current time is within
its expiry; success rewrites the password hash of the owning user and
consumes every row with the token; failure is a 400 with the store
unchanged; and a token all of whose rows are consumed or expired can
never succeed again, at any later time, for any password — in
particular never immediately after a successful confirm. -/
theorem c1_reset_token_single_use (hash : String → String) (db : DB)
    (tk pw : String) (now : Nat)
    (huniq : ∀ r₁ ∈ db.passwordResets, ∀ r₂ ∈ db.passwordResets,
      r₁.token = tk → r₂.token = tk → r₁ = r₂) :
    ((resetPassword hash db tk pw now).1 = .ok ↔
      ∃ r ∈ db.passwordResets, r.token = tk ∧ r.used = false ∧
        now ≤ r.expiresAt) ∧
    (∀ r, getPasswordReset db tk = some r → now ≤ r.expiresAt →
      (resetPassword hash db tk pw now).1 = .ok ∧
      (resetPassword hash db tk pw now).2.users =
        db.users.map
          (fun u => if u.email == r.email then { u with password := hash pw } else u) ∧
      (∀ r' ∈ (resetPassword hash db tk pw now).2.passwordResets,
        r'.token = tk → r'.used = true)) ∧
    ((resetPassword hash db tk pw now).1 ≠ .ok →
      (resetPassword hash db tk pw now).1.status = 400 ∧
      (resetPassword hash db tk pw now).2 = db) ∧
    ((∀ r ∈ db.passwordResets, r.token = tk →
        r.used = true ∨ r.expiresAt < now) →
      ∀ now' : Nat, now ≤ now' → ∀ pw' : String,
        (resetPassword hash db tk pw' now').1 ≠ .ok ∧
        (resetPassword hash db tk pw' now').2 = db) ∧
    ((resetPassword hash db tk pw now).1 = .ok →
      ∀ (hash' : String → String) (pw'' : String) (now'' : Nat),
        (resetPassword hash' (resetPassword hash db tk pw now).2 tk pw'' now'').1 ≠
          .ok) := by
  refine ⟨⟨?_, ?_⟩, ?_, ?_, ?_, ?_⟩
  · intro hok
    obtain ⟨r, hg, hle⟩ := resetPassword_ok_exists hash db tk pw now hok
    obtain ⟨hmem, htk, hused⟩ := getPasswordReset_spec db tk r hg
    exact ⟨r, hmem, htk, hused, hle⟩
  · rintro ⟨r, hmem, htk, hused, hle⟩
    have hsome : (getPasswordReset db tk).isSome := by
      rw [getPasswordReset, List.find?_isSome]
      exact ⟨r, hmem, by simp [htk, hused]⟩
    obtain ⟨r₀, hg⟩ := Option.isSome_iff_exists.mp hsome
    obtain ⟨hmem₀, htk₀, _⟩ := getPasswordReset_spec db tk r₀ hg
    have : r₀ = r := huniq r₀ hmem₀ r hmem htk₀ htk
    subst this
    exact (resetPassword_success_state hash db tk pw now r₀ hg hle).1
  · intro r hg hle
    exact resetPassword_success_state hash db tk pw now r hg hle
  · exact resetPassword_fail_state hash db tk pw now
  · intro hall now' hnow pw'
    exact resetPassword_dead_token hash db tk pw' now hall now' hnow
  · intro hok hash' pw'' now''
    obtain ⟨r, hg, hle⟩ := resetPassword_ok_exists hash db tk pw now hok
    have hstate := resetPassword_success_state hash db tk pw now r hg hle
    have hall : ∀ r' ∈ (resetPassword hash db tk pw now).2.passwordResets,
        r'.token = tk → r'.used = true ∨ r'.expiresAt < 0 :=
      fun r' hr' htk' => Or.inl (hstate.2.2 r' hr' htk')
    exact (resetPassword_dead_token hash' (resetPassword hash db tk pw now).2
      tk pw'' 0 hall now'' (Nat.zero_le _)).1

/-- Witness for C1: user a@x.com with token tok expiring at 3600000;
the confirm at time 100 succeeds, shown by applying the theorem on the
concrete store and discharging the token-uniqueness hypothesis. -/
theorem c1_witness :
    (resetPassword (fun s => s ++ "#h")
      ⟨[⟨1, "a@x.com", "old#h", none, none, 0⟩],
        [⟨1, "a@x.com", "tok", 3600000, false, 0⟩], [], 2, 2, 1⟩
      "tok" "newpw" 100).1 = .ok :=
  ((c1_reset_token_single_use (fun s => s ++ "#h")
      ⟨[⟨1, "a@x.com", "old#h", none, none, 0⟩],
        [⟨1, "a@x.com", "tok", 3600000, false, 0⟩], [], 2, 2, 1⟩
      "tok" "newpw" 100 (by decide)).1).mpr
    ⟨⟨1, "a@x.com", "tok", 3600000, false, 0⟩, by decide, rfl, rfl, by decide⟩

end TodoApp
